import Mathlib

/-!
Verification of the IPv4 subnet algebra, user resolution, passwd parsing,
DNS/root setup error propagation and free-IP scanning of the
`container-runtime` sources (`src/network.rs`, `src/spec.rs`,
`src/model.rs`, `src/container.rs`).

Machine integers are modelled as `Nat` with explicit truncation: a `u32`
value is a `Nat` below `2 ^ 32`, a `u16` value a `Nat` below `2 ^ 16`.
Rust arithmetic that can overflow is modelled with release-profile
semantics (wrapping subtraction, shift amounts masked by the bit width);
where a claim's verdict depends on such an overflow (only `cidr = 0`,
where `1u32 << 32` masks to `1 << 0`; a debug build panics there
instead), the relevant theorem says so in its doc comment.
-/

/-- Bitwise NOT on a `u32` value: XOR with the all-ones 32-bit word. -/
def u32Not (m : Nat) : Nat := (2 ^ 32 - 1) ^^^ m

/-- `Ipv4Net` (network.rs:171-175): an `Ipv4Addr` stored as the `u32` value
of its big-endian octets (`u32::from_be_bytes(self.address.octets())`,
exactly how `split` reads it), plus the `u16` prefix length. -/
structure Ipv4Net where
  address : Nat
  subnet_cidr : Nat
deriving DecidableEq, Repr

/-- `subnet_size` (network.rs:189-191): `(32 - self.subnet_cidr) as u32`.
The subtraction is on `u16`, wrapping modulo `2 ^ 16`; for `cidr ≤ 32`
this is plain `32 - cidr`, the *exponent* of the subnet's size. -/
def Ipv4Net.subnet_size (net : Ipv4Net) : Nat :=
  (32 + 2 ^ 16 - net.subnet_cidr % 2 ^ 16) % 2 ^ 16

/-- `subnet_mask` (network.rs:185-187): `!((1 << (32 - self.subnet_cidr) as u32) - 1)`
on `u32`. The shift amount is masked by `% 32` (release semantics; at
`cidr = 0` the amount 32 masks to 0, a debug build panics). -/
def Ipv4Net.subnet_mask (net : Ipv4Net) : Nat :=
  u32Not ((1 <<< (net.subnet_size % 32)) - 1)

/-- `split` (network.rs:212-219): `(addr & mask, addr & !mask)`. -/
def Ipv4Net.split (net : Ipv4Net) : Nat × Nat :=
  let addr_uint := net.address
  let subnet_mask := net.subnet_mask
  (addr_uint &&& subnet_mask, addr_uint &&& u32Not subnet_mask)

/-- `next` (network.rs:193-200): `network_part | ((host_part + 1) & !mask)`,
same prefix length. (`host_part + 1` cannot overflow `u32`: the mask is
never 0, so `host_part ≤ !mask < 2^32 - 1`.) -/
def Ipv4Net.next (net : Ipv4Net) : Ipv4Net :=
  let p := net.split
  ⟨p.1 ||| ((p.2 + 1) &&& u32Not net.subnet_mask), net.subnet_cidr⟩

/-- `is_network` (network.rs:202-205): host part is zero. -/
def Ipv4Net.is_network (net : Ipv4Net) : Bool := net.split.2 == 0

/-- `is_broadcast` (network.rs:207-210): host part is
`(1 << (32 - self.subnet_cidr)) - 1` (shift masked as in `subnet_mask`). -/
def Ipv4Net.is_broadcast (net : Ipv4Net) : Bool :=
  net.split.2 == (1 <<< (net.subnet_size % 32)) - 1

/-- The spec's mask formula `!((1 << (32-cidr)) - 1)` read in exact
arithmetic: complement of `2 ^ (32 - cidr) - 1` within 32 bits, with no
shift masking. -/
def specSubnetMask (cidr : Nat) : Nat := u32Not (2 ^ (32 - cidr) - 1)

theorem u32Not_u32Not (m : Nat) : u32Not (u32Not m) = m := by
  simp [u32Not, ← Nat.xor_assoc]

theorem subnet_size_eq {a c : Nat} (hc : c ≤ 32) :
    (Ipv4Net.mk a c).subnet_size = 32 - c := by
  simp only [Ipv4Net.subnet_size]
  omega

theorem u32Not_two_pow_sub_one {n : Nat} (hn : n ≤ 32) :
    u32Not (2 ^ n - 1) = (2 ^ (32 - n) - 1) * 2 ^ n := by
  apply Nat.eq_of_testBit_eq
  intro i
  rw [u32Not, Nat.testBit_xor, Nat.mul_comm, Nat.testBit_mul_pow_two,
    Nat.testBit_two_pow_sub_one, Nat.testBit_two_pow_sub_one, Nat.testBit_two_pow_sub_one]
  by_cases h1 : i < n
  · simp [h1, (by omega : i < 32), (by omega : ¬ n ≤ i)]
  · by_cases h2 : i < 32
    · simp [h1, h2, (by omega : n ≤ i), (by omega : i - n < 32 - n)]
    · simp [h1, h2, (by omega : n ≤ i), (by omega : ¬ (i - n < 32 - n))]
      omega

theorem two_pow_sub_two_pow {n : Nat} (hn : n ≤ 32) :
    (2 ^ (32 - n) - 1) * 2 ^ n = 2 ^ 32 - 2 ^ n := by
  have h : 2 ^ (32 - n) * 2 ^ n = 2 ^ 32 := by
    rw [← pow_add]
    congr 1
    omega
  have h2 : 1 ≤ 2 ^ (32 - n) := Nat.one_le_two_pow
  calc (2 ^ (32 - n) - 1) * 2 ^ n
      = 2 ^ (32 - n) * 2 ^ n - 1 * 2 ^ n := by rw [Nat.sub_mul]
    _ = 2 ^ 32 - 2 ^ n := by rw [h, one_mul]

/-- For `1 ≤ cidr ≤ 32` the shift is not masked and the code's mask agrees
with the spec's formula: the high `cidr` bits set. -/
theorem subnet_mask_eq {a c : Nat} (h1 : 1 ≤ c) (h2 : c ≤ 32) :
    (Ipv4Net.mk a c).subnet_mask = (2 ^ c - 1) * 2 ^ (32 - c) := by
  have hs : (Ipv4Net.mk a c).subnet_size = 32 - c := subnet_size_eq h2
  have hlt : 32 - c < 32 := by omega
  rw [Ipv4Net.subnet_mask, hs, Nat.mod_eq_of_lt hlt, Nat.shiftLeft_eq, one_mul,
    u32Not_two_pow_sub_one (by omega : 32 - c ≤ 32)]
  have h : 32 - (32 - c) = c := by omega
  rw [h]

theorem specSubnetMask_eq {c : Nat} (h1 : 1 ≤ c) (h2 : c ≤ 32) :
    specSubnetMask c = (2 ^ c - 1) * 2 ^ (32 - c) := by
  rw [specSubnetMask, u32Not_two_pow_sub_one (by omega : 32 - c ≤ 32)]
  have h : 32 - (32 - c) = c := by omega
  rw [h]

theorem and_high_bits {x n k : Nat} (hx : x < 2 ^ (k + n)) :
    x &&& (2 ^ n - 1) * 2 ^ k = x / 2 ^ k * 2 ^ k := by
  apply Nat.eq_of_testBit_eq
  intro i
  rw [Nat.testBit_and, Nat.mul_comm (2 ^ n - 1), Nat.testBit_mul_pow_two,
    Nat.testBit_two_pow_sub_one, Nat.mul_comm (x / 2 ^ k), Nat.testBit_mul_pow_two,
    ← Nat.shiftRight_eq_div_pow, Nat.testBit_shiftRight]
  by_cases h1 : k ≤ i
  · by_cases h2 : i - k < n
    · have h3 : k + (i - k) = i := by omega
      simp [h1, h2, h3]
    · have hxi : x.testBit i = false := Nat.testBit_lt_two_pow (by
        calc x < 2 ^ (k + n) := hx
          _ ≤ 2 ^ i := Nat.pow_le_pow_right (by norm_num) (by omega))
      have hxk : x.testBit (k + (i - k)) = false := by
        have h3 : k + (i - k) = i := by omega
        rw [h3, hxi]
      simp [h1, h2, hxi, hxk]
  · simp [h1]

theorem lor_mul_add {q r k : Nat} (hr : r < 2 ^ k) :
    q * 2 ^ k ||| r = q * 2 ^ k + r := by
  apply Nat.eq_of_testBit_eq
  intro i
  rw [Nat.testBit_or, Nat.mul_comm q, Nat.testBit_mul_pow_two,
    Nat.testBit_mul_pow_two_add q hr i]
  by_cases h1 : i < k
  · simp [h1, (by omega : ¬ k ≤ i)]
  · have hri : r.testBit i = false := Nat.testBit_lt_two_pow (by
      calc r < 2 ^ k := hr
        _ ≤ 2 ^ i := Nat.pow_le_pow_right (by norm_num) (by omega))
    simp [h1, (by omega : k ≤ i), hri]

theorem u32Not_subnet_mask {a c : Nat} (h1 : 1 ≤ c) (h2 : c ≤ 32) :
    u32Not (Ipv4Net.mk a c).subnet_mask = 2 ^ (32 - c) - 1 := by
  rw [Ipv4Net.subnet_mask, u32Not_u32Not, subnet_size_eq h2,
    Nat.mod_eq_of_lt (by omega : 32 - c < 32), Nat.shiftLeft_eq, one_mul]

theorem split_snd {a c : Nat} (h1 : 1 ≤ c) (h2 : c ≤ 32) :
    (Ipv4Net.mk a c).split.2 = a % 2 ^ (32 - c) := by
  show (Ipv4Net.mk a c).address &&& u32Not (Ipv4Net.mk a c).subnet_mask = _
  rw [u32Not_subnet_mask h1 h2, Nat.and_pow_two_sub_one_eq_mod]

theorem split_fst {a c : Nat} (ha : a < 2 ^ 32) (h1 : 1 ≤ c) (h2 : c ≤ 32) :
    (Ipv4Net.mk a c).split.1 = a / 2 ^ (32 - c) * 2 ^ (32 - c) := by
  show (Ipv4Net.mk a c).address &&& (Ipv4Net.mk a c).subnet_mask = _
  rw [subnet_mask_eq h1 h2]
  exact and_high_bits (by rw [(by omega : 32 - c + c = 32)]; exact ha)

theorem next_eq {a c : Nat} (ha : a < 2 ^ 32) (h1 : 1 ≤ c) (h2 : c ≤ 32) :
    (Ipv4Net.mk a c).next =
      ⟨a / 2 ^ (32 - c) * 2 ^ (32 - c) + (a % 2 ^ (32 - c) + 1) % 2 ^ (32 - c), c⟩ := by
  show Ipv4Net.mk
      ((Ipv4Net.mk a c).split.1 |||
        (((Ipv4Net.mk a c).split.2 + 1) &&& u32Not (Ipv4Net.mk a c).subnet_mask)) c = _
  rw [split_fst ha h1 h2, split_snd h1 h2, u32Not_subnet_mask h1 h2,
    Nat.and_pow_two_sub_one_eq_mod,
    lor_mul_add (Nat.mod_lt _ (Nat.two_pow_pos _))]

theorem add_low_div_mul {q x P : Nat} (hP : 0 < P) (hx : x < P) :
    ((q * P + x) / P * P = q * P) ∧ ((q * P + x) % P = x) := by
  constructor
  · rw [Nat.mul_comm q P, Nat.mul_add_div hP, Nat.div_eq_of_lt hx, Nat.add_zero, Nat.mul_comm]
  · rw [Nat.mul_comm q P, Nat.mul_add_mod, Nat.mod_eq_of_lt hx]

theorem orbit_address_lt {a c j : Nat} (ha : a < 2 ^ 32) (h2 : c ≤ 32) :
    a / 2 ^ (32 - c) * 2 ^ (32 - c) + (a % 2 ^ (32 - c) + j) % 2 ^ (32 - c) < 2 ^ 32 := by
  have hP : 0 < 2 ^ (32 - c) := Nat.two_pow_pos _
  have hmod : (a % 2 ^ (32 - c) + j) % 2 ^ (32 - c) < 2 ^ (32 - c) := Nat.mod_lt _ hP
  have hdiv : a / 2 ^ (32 - c) < 2 ^ c := by
    rw [Nat.div_lt_iff_lt_mul hP]
    calc a < 2 ^ 32 := ha
      _ = 2 ^ c * 2 ^ (32 - c) := by rw [← pow_add]; congr 1; omega
  have hle : a / 2 ^ (32 - c) * 2 ^ (32 - c) ≤ (2 ^ c - 1) * 2 ^ (32 - c) :=
    Nat.mul_le_mul_right _ (by omega)
  have heq : (2 ^ c - 1) * 2 ^ (32 - c) + 2 ^ (32 - c) = 2 ^ 32 := by
    have h1c : 0 < 2 ^ c := Nat.two_pow_pos _
    calc (2 ^ c - 1) * 2 ^ (32 - c) + 2 ^ (32 - c)
        = (2 ^ c - 1 + 1) * 2 ^ (32 - c) := by ring
      _ = 2 ^ c * 2 ^ (32 - c) := by rw [Nat.sub_add_cancel h1c]
      _ = 2 ^ 32 := by rw [← pow_add]; congr 1; omega
  omega

theorem next_iterate {a c : Nat} (ha : a < 2 ^ 32) (h1 : 1 ≤ c) (h2 : c ≤ 32) :
    ∀ j : Nat, Ipv4Net.next^[j] (Ipv4Net.mk a c) =
      ⟨a / 2 ^ (32 - c) * 2 ^ (32 - c) + (a % 2 ^ (32 - c) + j) % 2 ^ (32 - c), c⟩ := by
  have hP : 0 < 2 ^ (32 - c) := Nat.two_pow_pos _
  intro j
  induction j with
  | zero =>
    simp only [Function.iterate_zero, id_eq, Nat.add_zero,
      Nat.mod_eq_of_lt (Nat.mod_lt a hP)]
    have hdm := Nat.div_add_mod' a (2 ^ (32 - c))
    congr 1
    exact hdm.symm
  | succ j ih =>
    rw [Function.iterate_succ_apply', ih,
      next_eq (orbit_address_lt ha h2) h1 h2]
    have hmod : (a % 2 ^ (32 - c) + j) % 2 ^ (32 - c) < 2 ^ (32 - c) := Nat.mod_lt _ hP
    have hds := add_low_div_mul (q := a / 2 ^ (32 - c)) hP hmod
    rw [hds.1, hds.2, Nat.mod_add_mod, Nat.add_assoc]

/-- **C5** (amended): for `1 ≤ cidr ≤ 32`, `subnet_mask()` returns the
high-bits mask `!((1 << (32-cidr)) - 1) = 2^32 - 2^(32-cidr)`; in
particular `0xFFFFFF00` at cidr 24 and `0xFFFF8000` at cidr 17. At
`cidr = 0` the claim fails: the 32-bit shift overflows (release masks the
amount to 0 and yields `0xFFFFFFFF`; debug panics), see the
counterexample theorem. -/
theorem C5_subnet_mask_values : ∀ a c : Nat, 1 ≤ c → c ≤ 32 →
    (Ipv4Net.mk a c).subnet_mask = specSubnetMask c
    ∧ specSubnetMask c = 2 ^ 32 - 2 ^ (32 - c)
    ∧ (Ipv4Net.mk a 24).subnet_mask = 0xFFFFFF00
    ∧ (Ipv4Net.mk a 17).subnet_mask = 0xFFFF8000 := by
  intro a c h1 h2
  refine ⟨?_, ?_,
    by rw [subnet_mask_eq (by norm_num) (by norm_num)]; norm_num,
    by rw [subnet_mask_eq (by norm_num) (by norm_num)]; norm_num⟩
  · rw [subnet_mask_eq h1 h2, specSubnetMask_eq h1 h2]
  · rw [specSubnetMask_eq h1 h2]
    have h := two_pow_sub_two_pow (n := 32 - c) (by omega)
    rw [(by omega : 32 - (32 - c) = c)] at h
    exact h

/-- Witness for C5 at address 127.0.0.1 (`2130706433`), cidr 17. -/
theorem C5_subnet_mask_witness :
    (Ipv4Net.mk 2130706433 17).subnet_mask = specSubnetMask 17
    ∧ specSubnetMask 17 = 2 ^ 32 - 2 ^ (32 - 17)
    ∧ (Ipv4Net.mk 2130706433 24).subnet_mask = 0xFFFFFF00
    ∧ (Ipv4Net.mk 2130706433 17).subnet_mask = 0xFFFF8000 :=
  C5_subnet_mask_values 2130706433 17 (by norm_num) (by norm_num)

/-- **C5** counterexample: the claim quantifies over `0 ≤ cidr ≤ 32`, but
at `cidr = 0` the code returns `0xFFFFFFFF` (masked shift; a debug build
panics) while the spec formula `!((1 << 32) - 1)` is `0`. -/
theorem C5_subnet_mask_cidr_zero :
    (Ipv4Net.mk 0 0).subnet_mask = 0xFFFFFFFF ∧ specSubnetMask 0 = 0 ∧
      (Ipv4Net.mk 0 0).subnet_mask ≠ specSubnetMask 0 :=
  ⟨rfl, rfl, by decide⟩

/-- **C6** (amended): for `1 ≤ cidr < 32` and an in-range address,
`next()` keeps the network part and increments the host part by 1 modulo
`2^(32-cidr)`, maps the broadcast address back to the network address,
and `2^(32-cidr)` iterations return to the start. At `cidr = 0` the
claim fails (`next` is the identity there in a release build; debug
panics), see the counterexample theorem. -/
theorem C6_next_orbit : ∀ a c : Nat, a < 2 ^ 32 → 1 ≤ c → c < 32 →
    ((Ipv4Net.mk a c).next.split.1 = (Ipv4Net.mk a c).split.1
      ∧ (Ipv4Net.mk a c).next.split.2 = ((Ipv4Net.mk a c).split.2 + 1) % 2 ^ (32 - c))
    ∧ ((Ipv4Net.mk a c).is_broadcast = true →
        (Ipv4Net.mk a c).next.address = (Ipv4Net.mk a c).split.1
        ∧ (Ipv4Net.mk a c).next.is_network = true)
    ∧ Ipv4Net.next^[2 ^ (32 - c)] (Ipv4Net.mk a c) = Ipv4Net.mk a c := by
  intro a c ha h1 hc32
  have h2 : c ≤ 32 := by omega
  have hP : 0 < 2 ^ (32 - c) := Nat.two_pow_pos _
  have hmod1 : (a % 2 ^ (32 - c) + 1) % 2 ^ (32 - c) < 2 ^ (32 - c) := Nat.mod_lt _ hP
  have hlt1 : a / 2 ^ (32 - c) * 2 ^ (32 - c) + (a % 2 ^ (32 - c) + 1) % 2 ^ (32 - c) < 2 ^ 32 :=
    orbit_address_lt ha h2
  have hne := next_eq ha h1 h2
  have hds := add_low_div_mul (q := a / 2 ^ (32 - c)) hP hmod1
  have hone : 2 ^ (32 - c) - 1 + 1 = 2 ^ (32 - c) := Nat.sub_add_cancel Nat.one_le_two_pow
  refine ⟨⟨?_, ?_⟩, ?_, ?_⟩
  · rw [hne, split_fst hlt1 h1 h2, split_fst ha h1 h2]
    exact hds.1
  · rw [hne,
      split_snd (a := a / 2 ^ (32 - c) * 2 ^ (32 - c) + (a % 2 ^ (32 - c) + 1) % 2 ^ (32 - c))
        h1 h2,
      split_snd (a := a) h1 h2]
    exact hds.2
  · intro hb
    rw [Ipv4Net.is_broadcast, subnet_size_eq h2, Nat.mod_eq_of_lt (by omega : 32 - c < 32),
      Nat.shiftLeft_eq, one_mul, split_snd h1 h2, beq_iff_eq] at hb
    constructor
    · rw [hne]
      show a / 2 ^ (32 - c) * 2 ^ (32 - c) + (a % 2 ^ (32 - c) + 1) % 2 ^ (32 - c) = _
      rw [split_fst ha h1 h2, hb, hone, Nat.mod_self, Nat.add_zero]
    · rw [Ipv4Net.is_network, hne,
        split_snd (a := a / 2 ^ (32 - c) * 2 ^ (32 - c) + (a % 2 ^ (32 - c) + 1) % 2 ^ (32 - c))
          h1 h2,
        hds.2, hb, hone, Nat.mod_self]
      rfl
  · rw [next_iterate ha h1 h2 (2 ^ (32 - c))]
    have hx : (a % 2 ^ (32 - c) + 2 ^ (32 - c)) % 2 ^ (32 - c) = a % 2 ^ (32 - c) := by
      rw [Nat.add_mod_right, Nat.mod_eq_of_lt (Nat.mod_lt _ hP)]
    rw [hx]
    congr 1
    exact Nat.div_add_mod' a (2 ^ (32 - c))

/-- Witness for C6 at 10.0.0.1/24 (`167772161`). -/
theorem C6_next_orbit_witness :
    ((Ipv4Net.mk 167772161 24).next.split.1 = (Ipv4Net.mk 167772161 24).split.1
      ∧ (Ipv4Net.mk 167772161 24).next.split.2 =
        ((Ipv4Net.mk 167772161 24).split.2 + 1) % 2 ^ (32 - 24))
    ∧ ((Ipv4Net.mk 167772161 24).is_broadcast = true →
        (Ipv4Net.mk 167772161 24).next.address = (Ipv4Net.mk 167772161 24).split.1
        ∧ (Ipv4Net.mk 167772161 24).next.is_network = true)
    ∧ Ipv4Net.next^[2 ^ (32 - 24)] (Ipv4Net.mk 167772161 24) = Ipv4Net.mk 167772161 24 :=
  C6_next_orbit 167772161 24 (by norm_num) (by norm_num) (by norm_num)

/-- **C6** counterexample: the claim quantifies over every `cidr < 32`,
but at `cidr = 0` `next()` is the identity (masked shift makes the mask
all-ones and the host part empty; a debug build panics instead), so the
host part is not incremented. -/
theorem C6_next_cidr_zero :
    (Ipv4Net.mk 5 0).next = Ipv4Net.mk 5 0
    ∧ (Ipv4Net.mk 5 0).next.split.2 ≠ ((Ipv4Net.mk 5 0).split.2 + 1) % 2 ^ (32 - 0) :=
  ⟨rfl, by decide⟩

/-- Rust's `str::split` for a one-character pattern, over the character
list: always yields at least one (possibly empty) piece. -/
def splitOnChar (sep : Char) : List Char → List (List Char)
  | [] => [[]]
  | c :: rest =>
    if c = sep then [] :: splitOnChar sep rest
    else
      match splitOnChar sep rest with
      | [] => [[c]]
      | h :: t => (c :: h) :: t

theorem splitOnChar_ne_nil (sep : Char) (l : List Char) : splitOnChar sep l ≠ [] := by
  cases l with
  | nil => simp [splitOnChar]
  | cons c rest =>
    rw [splitOnChar]
    by_cases h : c = sep
    · simp [h]
    · simp only [if_neg h]
      cases splitOnChar sep rest <;> simp

theorem splitOnChar_no_sep {sep : Char} {l : List Char} (h : sep ∉ l) :
    splitOnChar sep l = [l] := by
  induction l with
  | nil => rfl
  | cons c rest ih =>
    have hc : ¬ c = sep := fun hc => h (by rw [hc]; exact List.mem_cons_self _ _)
    have hr : sep ∉ rest := fun hm => h (List.mem_cons_of_mem _ hm)
    rw [splitOnChar, if_neg hc, ih hr]

theorem splitOnChar_sep_cons (sep : Char) (l : List Char) :
    splitOnChar sep (sep :: l) = [] :: splitOnChar sep l := by
  rw [splitOnChar, if_pos rfl]

theorem splitOnChar_append_left {sep : Char} {l₁ : List Char} (h : sep ∉ l₁) (r : List Char) :
    splitOnChar sep (l₁ ++ r) =
      (l₁ ++ (splitOnChar sep r).headI) :: (splitOnChar sep r).tail := by
  induction l₁ with
  | nil =>
    cases hS : splitOnChar sep r with
    | nil => exact absurd hS (splitOnChar_ne_nil sep r)
    | cons p t => simp [hS]
  | cons c rest ih =>
    have hc : ¬ c = sep := fun hc => h (by rw [hc]; exact List.mem_cons_self _ _)
    have hr : sep ∉ rest := fun hm => h (List.mem_cons_of_mem _ hm)
    rw [List.cons_append, splitOnChar, if_neg hc, ih hr]
    rfl

theorem splitOnChar_append {sep : Char} {l₁ : List Char} (h : sep ∉ l₁) (l₂ : List Char) :
    splitOnChar sep (l₁ ++ sep :: l₂) = l₁ :: splitOnChar sep l₂ := by
  rw [splitOnChar_append_left h, splitOnChar_sep_cons]
  simp

/-- The ASCII digit character for `d ≤ 9`. -/
def decDigit (d : Nat) : Char := Char.ofNat (48 + d)

/-- Decimal rendering of a `Nat`, most significant digit first: the form
Rust's `Display` gives every unsigned integer (each `Ipv4Addr` octet and
the cidr half). -/
def toDecimal (n : Nat) : List Char :=
  if _h : n < 10 then [decDigit n]
  else toDecimal (n / 10) ++ [decDigit (n % 10)]
decreasing_by exact Nat.div_lt_self (by omega) (by omega)

/-- `c.is_ascii_digit()`: ASCII codes 48-57. -/
def isDigitChar (c : Char) : Bool := decide (48 ≤ c.toNat) && decide (c.toNat ≤ 57)

/-- The numeric value of an ASCII digit (`c as u32 - '0' as u32`). -/
def digitVal (c : Char) : Nat := c.toNat - 48

/-- The value of a most-significant-first digit string, as the checked
accumulation loop of `core`'s `from_str_radix` computes it. -/
def ofDigits (l : List Char) : Nat := l.foldl (fun acc c => acc * 10 + digitVal c) 0

theorem decDigit_toNat {d : Nat} (h : d ≤ 9) : (decDigit d).toNat = 48 + d := by
  interval_cases d <;> rfl

theorem digitVal_decDigit {d : Nat} (h : d ≤ 9) : digitVal (decDigit d) = d := by
  interval_cases d <;> rfl

theorem isDigitChar_decDigit {d : Nat} (h : d ≤ 9) : isDigitChar (decDigit d) = true := by
  interval_cases d <;> rfl

theorem toDecimal_ne_nil (n : Nat) : toDecimal n ≠ [] := by
  rw [toDecimal]
  split <;> simp

theorem toDecimal_all_digits : ∀ n, ∀ c ∈ toDecimal n, isDigitChar c = true := by
  intro n
  induction n using Nat.strong_induction_on with
  | _ n ih =>
    intro c hc
    rw [toDecimal] at hc
    split at hc
    · next h =>
      simp only [List.mem_singleton] at hc
      rw [hc]
      exact isDigitChar_decDigit (by omega)
    · next h =>
      rw [List.mem_append] at hc
      rcases hc with hc | hc
      · exact ih (n / 10) (Nat.div_lt_self (by omega) (by omega)) c hc
      · simp only [List.mem_singleton] at hc
        rw [hc]
        exact isDigitChar_decDigit (by omega)

theorem ofDigits_append (l : List Char) (c : Char) :
    ofDigits (l ++ [c]) = ofDigits l * 10 + digitVal c := by
  simp [ofDigits, List.foldl_append]

theorem ofDigits_toDecimal : ∀ n, ofDigits (toDecimal n) = n := by
  intro n
  induction n using Nat.strong_induction_on with
  | _ n ih =>
    rw [toDecimal]
    split
    · next h => simp [ofDigits, digitVal_decDigit (by omega : n ≤ 9)]
    · next h =>
      rw [ofDigits_append, ih (n / 10) (Nat.div_lt_self (by omega) (by omega)),
        digitVal_decDigit (by omega)]
      omega

theorem toDecimal_length : ∀ n k, 1 ≤ k → n < 10 ^ k → (toDecimal n).length ≤ k := by
  intro n
  induction n using Nat.strong_induction_on with
  | _ n ih =>
    intro k hk hn
    rw [toDecimal]
    split
    · next h => simpa using hk
    · next h =>
      rw [List.length_append]
      have hk2 : 2 ≤ k := by
        by_contra hlt
        have hone : k = 1 := by omega
        rw [hone, pow_one] at hn
        omega
      have hd : n / 10 < 10 ^ (k - 1) := by
        rw [Nat.div_lt_iff_lt_mul (by norm_num : (0:Nat) < 10)]
        calc n < 10 ^ k := hn
          _ = 10 ^ (k - 1) * 10 := by rw [← pow_succ]; congr 1; omega
      have hrec := ih (n / 10) (Nat.div_lt_self (by omega) (by omega)) (k - 1) (by omega) hd
      simp only [List.length_singleton]
      omega

theorem toDecimal_head_zero : ∀ n c rest, toDecimal n = c :: rest → c = '0' → n = 0 := by
  intro n
  induction n using Nat.strong_induction_on with
  | _ n ih =>
    intro c rest heq hc
    rw [toDecimal] at heq
    split at heq
    · next h =>
      injection heq with h1 _h2
      have h2 := decDigit_toNat (by omega : n ≤ 9)
      rw [h1, hc] at h2
      have h3 : ('0' : Char).toNat = 48 := rfl
      omega
    · next h =>
      cases hsplit : toDecimal (n / 10) with
      | nil => exact absurd hsplit (toDecimal_ne_nil _)
      | cons c0 rest0 =>
        rw [hsplit, List.cons_append] at heq
        injection heq with h1 _h2
        have := ih (n / 10) (Nat.div_lt_self (by omega) (by omega)) c0 rest0 hsplit
          (by rw [h1, hc])
        omega

theorem not_mem_toDecimal {ch : Char} (h : isDigitChar ch = false) (n : Nat) :
    ch ∉ toDecimal n := by
  intro hm
  have h2 := toDecimal_all_digits n ch hm
  rw [h] at h2
  exact Bool.noConfusion h2

theorem splitOnChar_cons_ne {sep c : Char} (h : ¬ c = sep) (l : List Char) :
    splitOnChar sep (c :: l) =
      (c :: (splitOnChar sep l).headI) :: (splitOnChar sep l).tail := by
  have hs : sep ∉ [c] := by
    intro hm
    rw [List.mem_singleton] at hm
    exact h hm.symm
  have h2 := splitOnChar_append_left hs l
  simpa using h2

theorem splitOnChar_append_cons {sep c : Char} {l₁ : List Char} (h1 : sep ∉ l₁)
    (h2 : ¬ c = sep) (r : List Char) :
    splitOnChar sep (l₁ ++ c :: r) =
      (l₁ ++ c :: (splitOnChar sep r).headI) :: (splitOnChar sep r).tail := by
  rw [splitOnChar_append_left h1, splitOnChar_cons_ne h2]
  simp

/-- One dotted-decimal group as `core::net`'s IPv4 parser accepts it:
1-3 ASCII digits, no leading zero unless the group is exactly `"0"`,
value at most 255 (`Ipv4Addr::from_str`'s group rules). -/
def parseOctet (l : List Char) : Option Nat :=
  match l with
  | [] => none
  | c :: rest =>
    if (c :: rest).all isDigitChar && decide ((c :: rest).length ≤ 3)
        && (c != '0' || rest.isEmpty) && decide (ofDigits (c :: rest) ≤ 255) then
      some (ofDigits (c :: rest))
    else none

/-- `Ipv4Addr::from_str`: exactly four dot-separated groups, combined
big-endian (`u32::from_be_bytes`). -/
def parseIpv4 (l : List Char) : Option Nat :=
  match splitOnChar '.' l with
  | [p1, p2, p3, p4] =>
    match parseOctet p1, parseOctet p2, parseOctet p3, parseOctet p4 with
    | some a, some b, some c, some d => some (((a * 256 + b) * 256 + c) * 256 + d)
    | _, _, _, _ => none
  | _ => none

/-- `u16::from_str` (`core`'s `from_str_radix`): on an unsigned type only
an optional `+` sign is stripped, then one or more ASCII digits are
accumulated with overflow checks; a leading `-` is not stripped (the
sign branch is gated on signedness) and fails as an invalid digit,
which the all-digits condition captures. -/
def parseU16 (l : List Char) : Option Nat :=
  match l with
  | '+' :: ds =>
    if !ds.isEmpty && ds.all isDigitChar && decide (ofDigits ds < 65536) then
      some (ofDigits ds)
    else none
  | ds =>
    if !ds.isEmpty && ds.all isDigitChar && decide (ofDigits ds < 65536) then
      some (ofDigits ds)
    else none

/-- `Ipv4Net::from_str` (network.rs:228-241): split on `/`, parse the
first piece as an `Ipv4Addr` and the second as a `u16`; pieces after the
second are ignored. Error payloads keep the fixed message prefixes (the
Rust code appends the inner error's text); the first branch is
unreachable since `split` always yields a first piece. -/
def Ipv4Net.from_str (s : String) : Except String Ipv4Net :=
  match splitOnChar '/' s.data with
  | [] => .error "Expected IP address."
  | [_] => .error "Expected cidr notation."
  | addr :: cidr :: _ =>
    match parseIpv4 addr with
    | none => .error "Failed to parse IP address."
    | some address =>
      match parseU16 cidr with
      | none => .error "Failed to parse subnet mask."
      | some subnet_cidr => .ok ⟨address, subnet_cidr⟩

/-- `Display for Ipv4Net` (network.rs:222-226): `"{address}/{cidr}"` with
`Ipv4Addr`'s dotted-decimal form of the four big-endian octets. -/
def Ipv4Net.to_string (net : Ipv4Net) : String :=
  ⟨toDecimal (net.address / 2 ^ 24 % 256) ++ '.' ::
    (toDecimal (net.address / 2 ^ 16 % 256) ++ '.' ::
      (toDecimal (net.address / 2 ^ 8 % 256) ++ '.' ::
        (toDecimal (net.address % 256) ++ '/' :: toDecimal net.subnet_cidr)))⟩

theorem parseOctet_toDecimal {m : Nat} (h : m ≤ 255) : parseOctet (toDecimal m) = some m := by
  cases hsplit : toDecimal m with
  | nil => exact absurd hsplit (toDecimal_ne_nil _)
  | cons c rest =>
    have hall : (c :: rest).all isDigitChar = true := by
      rw [← hsplit]
      exact List.all_eq_true.mpr (toDecimal_all_digits m)
    have hlen : (c :: rest).length ≤ 3 := by
      rw [← hsplit]
      exact toDecimal_length m 3 (by omega) (by omega)
    have hval : ofDigits (c :: rest) = m := by
      rw [← hsplit]
      exact ofDigits_toDecimal m
    have hlead : (c != '0' || rest.isEmpty) = true := by
      by_cases hc : c = '0'
      · have hm0 : m = 0 := toDecimal_head_zero m c rest hsplit hc
        rw [hm0] at hsplit
        have hz : toDecimal 0 = ['0'] := by rw [toDecimal]; rfl
        rw [hz] at hsplit
        injection hsplit with _h1 h2
        rw [← h2]
        simp
      · simp [hc]
    simp only [List.length_cons] at hlen
    simp [parseOctet, hall, hlead, hval, h]
    omega

theorem parseU16_toDecimal {m : Nat} (h : m < 65536) : parseU16 (toDecimal m) = some m := by
  cases hsplit : toDecimal m with
  | nil => exact absurd hsplit (toDecimal_ne_nil _)
  | cons c rest =>
    have hdig : isDigitChar c = true :=
      toDecimal_all_digits m c (by rw [hsplit]; exact List.mem_cons_self _ _)
    have hall : (c :: rest).all isDigitChar = true := by
      rw [← hsplit]
      exact List.all_eq_true.mpr (toDecimal_all_digits m)
    have hval : ofDigits (c :: rest) = m := by
      rw [← hsplit]
      exact ofDigits_toDecimal m
    have hplus : ¬ c = '+' := by
      intro he
      rw [he] at hdig
      exact absurd hdig (by decide)
    unfold parseU16
    split
    · next ds heq =>
      injection heq with he _
      exact absurd he hplus
    · next =>
      simp [hall, hval, h]

theorem from_str_parts {s : String} {p1 p2 : List Char} {t : List (List Char)} {a c : Nat}
    (hs : splitOnChar '/' s.data = p1 :: p2 :: t)
    (h1 : parseIpv4 p1 = some a) (h2 : parseU16 p2 = some c) :
    Ipv4Net.from_str s = Except.ok ⟨a, c⟩ := by
  unfold Ipv4Net.from_str
  simp only [hs, h1, h2]

/-- **C7** (confirmed): rendering a valid `Ipv4Net` (address a `u32`,
prefix a `u16`) with `Display` and parsing the result with `from_str`
yields the value back. -/
theorem C7_roundtrip : ∀ net : Ipv4Net, net.address < 2 ^ 32 → net.subnet_cidr < 2 ^ 16 →
    Ipv4Net.from_str net.to_string = Except.ok net := by
  intro net ha hc
  obtain ⟨a, c⟩ := net
  have ha2 : a < 2 ^ 32 := ha
  have hc2 : c < 2 ^ 16 := hc
  have hsl : isDigitChar '/' = false := by decide
  have hdt : isDigitChar '.' = false := by decide
  have hnd : ¬ ('.' : Char) = '/' := by decide
  have e4 : splitOnChar '/' (toDecimal (a % 256) ++ '/' :: toDecimal c) =
      [toDecimal (a % 256), toDecimal c] := by
    rw [splitOnChar_append (not_mem_toDecimal hsl _) _,
      splitOnChar_no_sep (not_mem_toDecimal hsl _)]
  have e3 : splitOnChar '/'
      (toDecimal (a / 2 ^ 8 % 256) ++ '.' :: (toDecimal (a % 256) ++ '/' :: toDecimal c)) =
      [toDecimal (a / 2 ^ 8 % 256) ++ '.' :: toDecimal (a % 256), toDecimal c] := by
    rw [splitOnChar_append_cons (not_mem_toDecimal hsl _) hnd, e4]
    rfl
  have e2 : splitOnChar '/'
      (toDecimal (a / 2 ^ 16 % 256) ++ '.' ::
        (toDecimal (a / 2 ^ 8 % 256) ++ '.' :: (toDecimal (a % 256) ++ '/' :: toDecimal c))) =
      [toDecimal (a / 2 ^ 16 % 256) ++ '.' ::
        (toDecimal (a / 2 ^ 8 % 256) ++ '.' :: toDecimal (a % 256)), toDecimal c] := by
    rw [splitOnChar_append_cons (not_mem_toDecimal hsl _) hnd, e3]
    rfl
  have e1 : splitOnChar '/'
      (toDecimal (a / 2 ^ 24 % 256) ++ '.' ::
        (toDecimal (a / 2 ^ 16 % 256) ++ '.' ::
          (toDecimal (a / 2 ^ 8 % 256) ++ '.' :: (toDecimal (a % 256) ++ '/' :: toDecimal c)))) =
      [toDecimal (a / 2 ^ 24 % 256) ++ '.' ::
        (toDecimal (a / 2 ^ 16 % 256) ++ '.' ::
          (toDecimal (a / 2 ^ 8 % 256) ++ '.' :: toDecimal (a % 256))), toDecimal c] := by
    rw [splitOnChar_append_cons (not_mem_toDecimal hsl _) hnd, e2]
    rfl
  have f : splitOnChar '.'
      (toDecimal (a / 2 ^ 24 % 256) ++ '.' ::
        (toDecimal (a / 2 ^ 16 % 256) ++ '.' ::
          (toDecimal (a / 2 ^ 8 % 256) ++ '.' :: toDecimal (a % 256)))) =
      [toDecimal (a / 2 ^ 24 % 256), toDecimal (a / 2 ^ 16 % 256),
        toDecimal (a / 2 ^ 8 % 256), toDecimal (a % 256)] := by
    rw [splitOnChar_append (not_mem_toDecimal hdt _) _,
      splitOnChar_append (not_mem_toDecimal hdt _) _,
      splitOnChar_append (not_mem_toDecimal hdt _) _,
      splitOnChar_no_sep (not_mem_toDecimal hdt _)]
  have hp : parseIpv4
      (toDecimal (a / 2 ^ 24 % 256) ++ '.' ::
        (toDecimal (a / 2 ^ 16 % 256) ++ '.' ::
          (toDecimal (a / 2 ^ 8 % 256) ++ '.' :: toDecimal (a % 256)))) = some a := by
    unfold parseIpv4
    simp only [f]
    rw [parseOctet_toDecimal (by omega : a / 2 ^ 24 % 256 ≤ 255),
      parseOctet_toDecimal (by omega : a / 2 ^ 16 % 256 ≤ 255),
      parseOctet_toDecimal (by omega : a / 2 ^ 8 % 256 ≤ 255),
      parseOctet_toDecimal (by omega : a % 256 ≤ 255)]
    exact congrArg some (by omega)
  have e0 : splitOnChar '/' (Ipv4Net.to_string ⟨a, c⟩).data =
      [toDecimal (a / 2 ^ 24 % 256) ++ '.' ::
        (toDecimal (a / 2 ^ 16 % 256) ++ '.' ::
          (toDecimal (a / 2 ^ 8 % 256) ++ '.' :: toDecimal (a % 256))), toDecimal c] := e1
  exact from_str_parts e0 hp (parseU16_toDecimal (by omega))

/-- Witness for C7 at 127.0.0.1/17. -/
theorem C7_roundtrip_witness :
    Ipv4Net.from_str (Ipv4Net.mk 2130706433 17).to_string = Except.ok ⟨2130706433, 17⟩ :=
  C7_roundtrip ⟨2130706433, 17⟩ (by norm_num) (by norm_num)

/-- **C3** (amended): `from_str` succeeds exactly when the split on `/`
yields at least two pieces, the first a valid dotted-decimal IPv4
address and the second a valid `u16` — any cidr in `0..=65535` is
accepted, there is no `0..=32` range check. Missing halves
(`"1.2.3.4"`, `"/24"`) are rejected as the claim says. -/
theorem C3_from_str_acceptance : ∀ s : String,
    ((∃ net, Ipv4Net.from_str s = Except.ok net) ↔
      ∃ p1 p2 t, splitOnChar '/' s.data = p1 :: p2 :: t
        ∧ (parseIpv4 p1).isSome = true ∧ (parseU16 p2).isSome = true)
    ∧ Ipv4Net.from_str "1.2.3.4" = Except.error "Expected cidr notation."
    ∧ Ipv4Net.from_str "/24" = Except.error "Failed to parse IP address." := by
  intro s
  refine ⟨?_, by rfl, by rfl⟩
  unfold Ipv4Net.from_str
  cases hsp : splitOnChar '/' s.data with
  | nil => simp
  | cons p1 rest =>
    cases rest with
    | nil => simp
    | cons p2 t =>
      cases hp1 : parseIpv4 p1 with
      | none => simp [hp1]
      | some av =>
        cases hp2 : parseU16 p2 with
        | none => simp [hp1, hp2]
        | some cv =>
          simp [hp1, hp2]
          exact ⟨p1, p2, ⟨rfl, rfl⟩, by simp [hp1], by simp [hp2]⟩

/-- **C3** counterexample: the claim says any cidr outside `0..=32` is
rejected, but the code parses the cidr half as a plain `u16`:
`"1.2.3.4/33"` is accepted. -/
theorem C3_accepts_cidr_33 :
    Ipv4Net.from_str "1.2.3.4/33" = Except.ok ⟨16909060, 33⟩ ∧ ¬ (33 ≤ 32) :=
  ⟨rfl, by decide⟩

/-- `User` (model.rs:61-67); the `PathBuf` home folder is modelled as a
string. -/
structure User where
  username : String
  id : Int
  group_id : Option Int
  home_folder : String
deriving DecidableEq, Repr

/-- `UserSpec` (spec.rs:65-70). -/
inductive UserSpec where
  | Name (name : String)
  | Id (id : Int)
  | IdAndGroupId (user_id : Int) (group_id : Int)
deriving DecidableEq, Repr

/-- Rust's `#[derive(Debug)]` rendering of `UserSpec`, used by the
`InvalidUser` error message (`{0:?}`). -/
def UserSpec.debugRepr : UserSpec → String
  | .Name s => "Name(\x22" ++ s ++ "\x22)"
  | .Id n => "Id(" ++ toString n ++ ")"
  | .IdAndGroupId u g => "IdAndGroupId(" ++ toString u ++ ", " ++ toString g ++ ")"

/-- `ContainerRuntimeError` (model.rs:11-57). The Rust variant `IO` is
named `IOError` here (`IO` clashes with the Lean namespace); its payload
is the inner `io::Error`'s message, produced by the `#[from]`
conversion. -/
inductive ContainerRuntimeError where
  | CreateNetworkBridge (msg : String)
  | CreateNetworkNamespace (msg : String)
  | DestroyNetworkNamespace (msg : String)
  | SetupCpuCgroup (msg : String)
  | SetupMemoryCgroup (msg : String)
  | SetupNetwork (msg : String)
  | SetupDNS (msg : String)
  | SetupUser (msg : String)
  | SetupContainerRoot (msg : String)
  | SetupMounts (msg : String)
  | SetupDevices (msg : String)
  | InvalidUser (user : UserSpec)
  | NetworkIsFull
  | FailedToDetermineInternetInterface (msg : String)
  | IPCommand (msg : String)
  | IPTablesCommand (msg : String)
  | Mount (msg : String)
  | Execute (msg : String)
  | IOError (msg : String)
  | Libc (msg : String)
deriving DecidableEq, Repr

/-- The `thiserror`-derived `Display` of each variant (the `#[error]`
attributes in model.rs:11-57). -/
def ContainerRuntimeError.to_string : ContainerRuntimeError → String
  | .CreateNetworkBridge m => "Failed to create network bridge: " ++ m
  | .CreateNetworkNamespace m => "Failed to create network namespace: " ++ m
  | .DestroyNetworkNamespace m => "Failed to destroy network namespace: " ++ m
  | .SetupCpuCgroup m => "Failed to setup cpu cgroup: " ++ m
  | .SetupMemoryCgroup m => "Failed to setup memory cgroup: " ++ m
  | .SetupNetwork m => "Failed to setup network stack: " ++ m
  | .SetupDNS m => "Failed to setup DNS: " ++ m
  | .SetupUser m => "Failed to setup user: " ++ m
  | .SetupContainerRoot m => "Failed to setup container root: " ++ m
  | .SetupMounts m => "Failed to setup mounts: " ++ m
  | .SetupDevices m => "Failed to setup devices: " ++ m
  | .InvalidUser u => "User not found: " ++ u.debugRepr
  | .NetworkIsFull => "No free IP address found in network"
  | .FailedToDetermineInternetInterface m => "Failed to determine internet interface: " ++ m
  | .IPCommand m => "IP command failure: " ++ m
  | .IPTablesCommand m => "IPTables command failure: " ++ m
  | .Mount m => "Failed to mount: " ++ m
  | .Execute m => "Failed to execute: " ++ m
  | .IOError m => "I/O error: " ++ m
  | .Libc m => "Libc error: " ++ m

/-- Whether an error is one of the `Setup<Stage>` variants. -/
def ContainerRuntimeError.is_setup_stage_error : ContainerRuntimeError → Bool
  | .SetupCpuCgroup _ | .SetupMemoryCgroup _ | .SetupNetwork _ | .SetupDNS _
  | .SetupUser _ | .SetupContainerRoot _ | .SetupMounts _ | .SetupDevices _ => true
  | _ => false

/-- The `UserSpec::Name` loop of `find_user` (spec.rs:75-83). -/
def findByName (name : String) : List User → Option User
  | [] => none
  | user :: rest => if user.username = name then some user else findByName name rest

/-- The `UserSpec::Id` loop of `find_user` (spec.rs:85-89). -/
def findById (id : Int) : List User → Option User
  | [] => none
  | user :: rest => if user.id = id then some user else findById id rest

/-- The `UserSpec::IdAndGroupId` loop of `find_user` (spec.rs:101-105). -/
def findByIdAndGroupId (user_id group_id : Int) : List User → Option User
  | [] => none
  | user :: rest =>
    if user.id = user_id ∧ user.group_id = some group_id then some user
    else findByIdAndGroupId user_id group_id rest

/-- `UserSpec::find_user` (spec.rs:73-117); `users` is the iterator the
caller passes (`HashMap::values` in `execute`). -/
def UserSpec.find_user (spec : UserSpec) (users : List User) : Option User :=
  match spec with
  | .Name name => findByName name users
  | .Id id =>
    match findById id users with
    | some user => some user
    | none => some ⟨"unknown", id, none, "/root"⟩
  | .IdAndGroupId user_id group_id =>
    match findByIdAndGroupId user_id group_id users with
    | some user => some user
    | none => some ⟨"unknown", user_id, some group_id, "/root"⟩

/-- `DNSSpec` (spec.rs:188-192). -/
inductive DNSSpec where
  | Server (servers : List String)
  | CopyFromHost
deriving DecidableEq, Repr

/-- `BridgedNetworkSpec` (spec.rs:162-168). -/
structure BridgedNetworkSpec where
  bridge_interface : String
  bridge_ip_address : Ipv4Net
  container_ip_address : Ipv4Net
  hostname : Option String
deriving DecidableEq, Repr

/-- `NetworkSpec` (spec.rs:139-143). -/
inductive NetworkSpec where
  | Host
  | Bridged (bridged : BridgedNetworkSpec)
deriving DecidableEq, Repr

/-- `RunContainerSpec` (spec.rs:8-23), restricted to the fields the
functions modelled here read; the path, command, resource and bind-mount
fields play no part in these claims. -/
structure RunContainerSpec where
  id : String
  name : String
  network : NetworkSpec
  dns : DNSSpec
  user : Option UserSpec

/-- `RunContainerSpec::hostname` (spec.rs:38-45). -/
def RunContainerSpec.hostname (spec : RunContainerSpec) : Option String :=
  match spec.network with
  | .Host => none
  | .Bridged bridged => some (bridged.hostname.getD spec.name)

/-- `RunContainerSpec::network_namespace` (spec.rs:57-62):
`cort-<first 4 bytes of id>`. Byte slicing is modelled as `take` on the
characters; they agree on the ASCII UUID-shaped ids the program creates
(a shorter id would make the Rust slice panic, not modelled). -/
def RunContainerSpec.network_namespace (spec : RunContainerSpec) : Option String :=
  match spec.network with
  | .Host => none
  | .Bridged _ => some ("cort-" ++ ⟨spec.id.data.take 4⟩)

/-- `RunContainerSpec::user` (spec.rs:47-55); renamed, Lean forbids a
method with the `user` field's name. -/
def RunContainerSpec.resolveUser (spec : RunContainerSpec) (users : List User) :
    Option (Except ContainerRuntimeError User) :=
  match spec.user with
  | none => none
  | some us =>
    some (match us.find_user users with
      | some user => .ok user
      | none => .error (.InvalidUser us))

/-- Whether the child pipeline reaches `sethostname`: `execute`
(container.rs:57-59) runs `setup_network` only when `network_namespace()`
is `Some`, and `setup_network` (container.rs:221-226) calls `sethostname`
only when the hostname argument is `Some`. -/
def child_calls_sethostname (spec : RunContainerSpec) : Bool :=
  spec.network_namespace.isSome && spec.hostname.isSome

theorem findByName_eq (s : String) (users : List User) :
    findByName s users = users.find? (fun u => u.username == s) := by
  induction users with
  | nil => rfl
  | cons u rest ih =>
    by_cases h : u.username = s
    · rw [findByName, if_pos h, List.find?_cons_of_pos _ (by simp [h])]
    · rw [findByName, if_neg h, List.find?_cons_of_neg _ (by simp [h]), ih]

theorem findById_eq (i : Int) (users : List User) :
    findById i users = users.find? (fun u => u.id == i) := by
  induction users with
  | nil => rfl
  | cons u rest ih =>
    by_cases h : u.id = i
    · rw [findById, if_pos h, List.find?_cons_of_pos _ (by simp [h])]
    · rw [findById, if_neg h, List.find?_cons_of_neg _ (by simp [h]), ih]

theorem findByIdAndGroupId_eq (i g : Int) (users : List User) :
    findByIdAndGroupId i g users =
      users.find? (fun u => u.id == i && u.group_id == some g) := by
  induction users with
  | nil => rfl
  | cons u rest ih =>
    by_cases h : u.id = i ∧ u.group_id = some g
    · rw [findByIdAndGroupId, if_pos h, List.find?_cons_of_pos _ (by simp [h.1, h.2])]
    · rw [findByIdAndGroupId, if_neg h, List.find?_cons_of_neg _ ?_, ih]
      rw [Decidable.not_and_iff_or_not] at h
      rcases h with h | h <;> simp [h]

/-- **C4** (confirmed): `Name` resolves to the first exact username match
and `RunContainerSpec::user` turns a miss into `InvalidUser`; `Id`
resolves by uid and synthesizes `{"unknown", id, None, /root}` on a
miss; `IdAndGroupId` resolves by (uid, gid) and synthesizes
`{"unknown", uid, Some gid, /root}` on a miss. -/
theorem C4_user_resolution : ∀ (users : List User) (s : String) (i g : Int)
    (spec : RunContainerSpec),
    (UserSpec.find_user (.Name s) users = users.find? (fun u => u.username == s))
    ∧ (UserSpec.find_user (.Id i) users =
        some ((users.find? (fun u => u.id == i)).getD ⟨"unknown", i, none, "/root"⟩))
    ∧ (UserSpec.find_user (.IdAndGroupId i g) users =
        some ((users.find? (fun u => u.id == i && u.group_id == some g)).getD
          ⟨"unknown", i, some g, "/root"⟩))
    ∧ (spec.user = some (.Name s) → users.find? (fun u => u.username == s) = none →
        spec.resolveUser users = some (.error (.InvalidUser (.Name s)))) := by
  intro users s i g spec
  refine ⟨findByName_eq s users, ?_, ?_, ?_⟩
  · simp only [UserSpec.find_user]
    rw [findById_eq]
    cases users.find? (fun u => u.id == i) <;> rfl
  · simp only [UserSpec.find_user]
    rw [findByIdAndGroupId_eq]
    cases users.find? (fun u => u.id == i && u.group_id == some g) <;> rfl
  · intro h1 h2
    rw [RunContainerSpec.resolveUser, h1]
    simp only [UserSpec.find_user]
    rw [findByName_eq, h2]

/-- **C10** (confirmed): with `Host` networking `hostname()` is `None`
and the child never reaches `sethostname`; with `Bridged` networking it
is the bridged spec's hostname, defaulting to the `name` field (never
the id), so a bridged child always has a hostname to set. -/
theorem C10_hostname_policy : ∀ (i n : String) (d : DNSSpec) (u : Option UserSpec)
    (b : BridgedNetworkSpec),
    (RunContainerSpec.hostname ⟨i, n, .Host, d, u⟩ = none)
    ∧ (child_calls_sethostname ⟨i, n, .Host, d, u⟩ = false)
    ∧ (RunContainerSpec.hostname ⟨i, n, .Bridged b, d, u⟩ = some (b.hostname.getD n))
    ∧ (∀ s, b.hostname = some s →
        RunContainerSpec.hostname ⟨i, n, .Bridged b, d, u⟩ = some s)
    ∧ (b.hostname = none → RunContainerSpec.hostname ⟨i, n, .Bridged b, d, u⟩ = some n)
    ∧ (child_calls_sethostname ⟨i, n, .Bridged b, d, u⟩ = true) := by
  intro i n d u b
  refine ⟨rfl, rfl, rfl, ?_, ?_, rfl⟩
  · intro s hs
    simp [RunContainerSpec.hostname, hs]
  · intro hn
    simp [RunContainerSpec.hostname, hn]

/-- The scanning loop of `find_free_ip_address` (network.rs:117-126):
`fuel` counts the remaining iterations of `for _ in 0..n`; the two
nested `if`s of the body are fused into one conjunction. The
`ip addr show` / `ip netns exec .. ip addr show` queries behind
`check_is_ip_address_used` (including the `cort-` namespace list) are
abstracted as the oracle `used`. -/
def findFreeIpLoop (used : Ipv4Net → Bool) :
    Ipv4Net → Nat → Except ContainerRuntimeError Ipv4Net
  | _, 0 => .error .NetworkIsFull
  | ip, fuel + 1 =>
    if !ip.is_broadcast && !ip.is_network && !used ip then .ok ip
    else findFreeIpLoop used ip.next fuel

/-- `find_free_ip_address` (network.rs:101-129): the loop bound is
`subnet_size()`, which is the exponent `32 - cidr`, not the subnet's
size `2^(32-cidr)`. -/
def find_free_ip_address (used : Ipv4Net → Bool) (base_ip_address : Ipv4Net) :
    Except ContainerRuntimeError Ipv4Net :=
  findFreeIpLoop used base_ip_address base_ip_address.subnet_size

/-- Modelled from the spec: the same scan run for the claim's bound,
"advancing by next() at most 2^(32-cidr) times". -/
def find_free_ip_spec (used : Ipv4Net → Bool) (base_ip_address : Ipv4Net) :
    Except ContainerRuntimeError Ipv4Net :=
  findFreeIpLoop used base_ip_address (2 ^ base_ip_address.subnet_size)

/-- **C1** (code bug): on base 10.0.0.0/16 (`167772160`) with only the 16
addresses 10.0.0.0-10.0.0.16 in use, the code scans `32 - 16 = 16`
candidates and reports `NetworkIsFull`, although 10.0.0.17
(`167772177`) is free, non-reserved and in the same subnet — and the
spec-bound scan of `2^16` candidates finds it. The error's own message,
"No free IP address found in network", is contradicted. -/
theorem C1_find_free_ip_exhausts_early :
    find_free_ip_address (fun ip => decide (ip.address ≤ 167772176)) ⟨167772160, 16⟩
      = Except.error ContainerRuntimeError.NetworkIsFull
    ∧ find_free_ip_spec (fun ip => decide (ip.address ≤ 167772176)) ⟨167772160, 16⟩
      = Except.ok ⟨167772177, 16⟩
    ∧ (Ipv4Net.mk 167772177 16).is_network = false
    ∧ (Ipv4Net.mk 167772177 16).is_broadcast = false
    ∧ (Ipv4Net.mk 167772177 16).split.1 = (Ipv4Net.mk 167772160 16).split.1 :=
  ⟨rfl, rfl, rfl, rfl, rfl⟩

/-- `join("\n")` of a `Vec<String>` (Rust `[String]::join`): the pieces
with the separator between consecutive elements. -/
def joinSep (sep : String) : List String → String
  | [] => ""
  | [x] => x
  | x :: rest => x ++ sep ++ joinSep sep rest

/-- Plain concatenation of already-terminated lines, the form the C8
claim describes. -/
def concatAll : List String → String
  | [] => ""
  | x :: rest => x ++ concatAll rest

/-- The `resolv_content` computation of `setup_dns` (container.rs:235-244):
for `Server` the `nameserver` lines joined with `\n` plus one trailing
newline; for `CopyFromHost` the host's `/etc/resolv.conf`, read through
`?`, which turns an `io::Error` into the unwrapped `IO` variant.
`read_host` is the oracle for `std::fs::read_to_string`. -/
def resolv_content (read_host : Except String String) (dns : DNSSpec) :
    Except ContainerRuntimeError String :=
  match dns with
  | .Server servers =>
    .ok (joinSep "\n" (servers.map (fun server => "nameserver " ++ server)) ++ "\n")
  | .CopyFromHost => read_host.mapError ContainerRuntimeError.IOError

/-- `setup_dns` (container.rs:234-254): the content is computed *before*
the `inner` closure, so a host-read failure propagates unwrapped; only
the write of `etc/resolv.conf` under the new root goes through
`inner().map_err(SetupDNS)`. `write_resolv` is the oracle for
`std::fs::write`, yielding the `io::Error` message on failure. -/
def setup_dns (read_host : Except String String)
    (write_resolv : String → Except String Unit) (dns : DNSSpec) :
    Except ContainerRuntimeError Unit :=
  match resolv_content read_host dns with
  | .error e => .error e
  | .ok content =>
    (write_resolv content).mapError
      (fun io_err => .SetupDNS (ContainerRuntimeError.IOError io_err).to_string)

/-- The `create_dir_all` loop of `create_container_root`
(container.rs:97-101): a failure propagates through `?` as the `IO`
variant, unwrapped. `exists_check` and `create_dir_all` are filesystem
oracles. -/
def createDirsLoop (exists_check : String → Bool)
    (create_dir_all : String → Except String Unit) :
    List String → Except ContainerRuntimeError Unit
  | [] => .ok ()
  | path :: rest =>
    if exists_check path then createDirsLoop exists_check create_dir_all rest
    else
      match create_dir_all path with
      | .error e => .error (.IOError e)
      | .ok _ => createDirsLoop exists_check create_dir_all rest

/-- `create_container_root` (container.rs:90-117). The overlay `mount`
(linux.rs:7-28) fails with the `Mount` variant; `mount_overlay` is its
oracle, applied to the overlay data string. There is no `Setup<Stage>`
wrapping anywhere in this function. -/
def create_container_root (exists_check : String → Bool)
    (create_dir_all : String → Except String Unit)
    (mount_overlay : String → Except String Unit)
    (image_root container_root : String) : Except ContainerRuntimeError String :=
  let container_cow_rw := container_root ++ "/cow_rw"
  let container_cow_workdir := container_root ++ "/cow_workdir"
  let container_rootfs := container_root ++ "/rootfs"
  match createDirsLoop exists_check create_dir_all
      [container_cow_rw, container_cow_workdir, container_rootfs] with
  | .error e => .error e
  | .ok _ =>
    match mount_overlay ("lowerdir=" ++ image_root ++ ",upperdir=" ++ container_cow_rw
        ++ ",workdir=" ++ container_cow_workdir) with
    | .error e => .error (.Mount e)
    | .ok _ => .ok container_rootfs

/-- `setup_cpu_cgroup` (container.rs:164-178): the `inner` closure's body
(cgroup creation and quota writes) abstracted as its result; the stage
boundary maps any inner error to `SetupCpuCgroup(err.to_string())`. -/
def setup_cpu_cgroup (inner : Except ContainerRuntimeError Unit) :
    Except ContainerRuntimeError Unit :=
  inner.mapError (fun err => .SetupCpuCgroup err.to_string)

/-- `setup_memory_cgroup` (container.rs:180-198), same shape. -/
def setup_memory_cgroup (inner : Except ContainerRuntimeError Unit) :
    Except ContainerRuntimeError Unit :=
  inner.mapError (fun err => .SetupMemoryCgroup err.to_string)

/-- `setup_network` (container.rs:212-232), same shape. -/
def setup_network (inner : Except ContainerRuntimeError Unit) :
    Except ContainerRuntimeError Unit :=
  inner.mapError (fun err => .SetupNetwork err.to_string)

/-- `setup_user` (container.rs:256-273), same shape. -/
def setup_user (inner : Except ContainerRuntimeError Unit) :
    Except ContainerRuntimeError Unit :=
  inner.mapError (fun err => .SetupUser err.to_string)

/-- `setup_container_root` (container.rs:119-162), same shape (its inner
body runs the mounts, devices, bind mounts and the pivot sequence). -/
def setup_container_root (inner : Except ContainerRuntimeError Unit) :
    Except ContainerRuntimeError Unit :=
  inner.mapError (fun err => .SetupContainerRoot err.to_string)

/-- `setup_mounts` (container.rs:275-293), same shape. -/
def setup_mounts (inner : Except ContainerRuntimeError Unit) :
    Except ContainerRuntimeError Unit :=
  inner.mapError (fun err => .SetupMounts err.to_string)

/-- `setup_devices` (container.rs:295-329), same shape. -/
def setup_devices (inner : Except ContainerRuntimeError Unit) :
    Except ContainerRuntimeError Unit :=
  inner.mapError (fun err => .SetupDevices err.to_string)

/-- **C2** (amended): the cgroup, network, user, container-root, mounts
and devices stages wrap any inner error in their `Setup<Stage>` variant,
whose rendered message contains the inner message; `setup_dns` wraps
only write failures in `SetupDNS` — a `CopyFromHost` read failure
surfaces as the unwrapped `IO` variant — and `create_container_root`
wraps nothing: its failures surface as `IO` or `Mount`. -/
theorem C2_stage_error_wrapping : ∀ (e : ContainerRuntimeError)
    (m host image root : String) (servers : List String)
    (r : Except String String) (w : String → Except String Unit)
    (cda : String → Except String Unit) (mo : String → Except String Unit),
    (setup_cpu_cgroup (.error e) = .error (.SetupCpuCgroup e.to_string))
    ∧ (setup_memory_cgroup (.error e) = .error (.SetupMemoryCgroup e.to_string))
    ∧ (setup_network (.error e) = .error (.SetupNetwork e.to_string))
    ∧ (setup_user (.error e) = .error (.SetupUser e.to_string))
    ∧ (setup_container_root (.error e) = .error (.SetupContainerRoot e.to_string))
    ∧ (setup_mounts (.error e) = .error (.SetupMounts e.to_string))
    ∧ (setup_devices (.error e) = .error (.SetupDevices e.to_string))
    ∧ (setup_dns r (fun _ => .error m) (.Server servers)
        = .error (.SetupDNS ("I/O error: " ++ m)))
    ∧ (setup_dns (.ok host) (fun _ => .error m) .CopyFromHost
        = .error (.SetupDNS ("I/O error: " ++ m)))
    ∧ (setup_dns (.error m) w .CopyFromHost = .error (.IOError m))
    ∧ (create_container_root (fun _ => false) (fun _ => .error m) mo image root
        = .error (.IOError m))
    ∧ (create_container_root (fun _ => true) cda (fun _ => .error m) image root
        = .error (.Mount m))
    ∧ ((ContainerRuntimeError.SetupDNS ("I/O error: " ++ m)).to_string
        = "Failed to setup DNS: " ++ ("I/O error: " ++ m))
    ∧ ((ContainerRuntimeError.SetupCpuCgroup e.to_string).to_string
        = "Failed to setup cpu cgroup: " ++ e.to_string) := by
  intro e m host image root servers r w cda mo
  exact ⟨rfl, rfl, rfl, rfl, rfl, rfl, rfl, rfl, rfl, rfl, rfl, rfl, rfl, rfl⟩

/-- **C2** counterexample: a failed host `/etc/resolv.conf` read makes
`setup_dns` return the `IO` variant, not `SetupDNS` and not any
`Setup<Stage>` variant. -/
theorem C2_dns_read_error_unwrapped :
    setup_dns (.error "io failure") (fun _ => .ok ()) .CopyFromHost
      = .error (.IOError "io failure")
    ∧ (ContainerRuntimeError.IOError "io failure").is_setup_stage_error = false :=
  ⟨rfl, rfl⟩

theorem joinSep_newline (f : String → String) : ∀ (s : String) (l : List String),
    joinSep "\n" ((s :: l).map f) ++ "\n" = concatAll ((s :: l).map (fun x => f x ++ "\n")) := by
  intro s l
  induction l generalizing s with
  | nil => simp [joinSep, concatAll]
  | cons x rest ih =>
    show (f s ++ "\n" ++ joinSep "\n" ((x :: rest).map f)) ++ "\n" = _
    rw [String.append_assoc, ih x]
    rfl

/-- **C8** (amended): for a nonempty server list the written content is
the concatenation of one `nameserver <ip>\n` line per server; for the
empty list it is a single `"\n"` (not empty); for `CopyFromHost` it is
the host file verbatim. -/
theorem C8_resolv_content : ∀ (s host : String) (servers : List String)
    (r : Except String String),
    (resolv_content r (.Server (s :: servers))
        = .ok (concatAll ((s :: servers).map (fun sv => "nameserver " ++ sv ++ "\n"))))
    ∧ (resolv_content r (.Server []) = .ok "\n")
    ∧ (resolv_content (.ok host) .CopyFromHost = .ok host) := by
  intro s host servers r
  refine ⟨?_, rfl, rfl⟩
  exact congrArg Except.ok (joinSep_newline (fun sv => "nameserver " ++ sv) s servers)

/-- **C8** counterexample: the claim says the `Server` content for zero
servers is empty, but `join("\n") + "\n"` yields `"\n"`. -/
theorem C8_empty_server_list :
    resolv_content (.ok "") (.Server []) = .ok "\n" ∧ ("\n" : String) ≠ "" :=
  ⟨rfl, by decide⟩

/-- Drop one trailing carriage return: Rust's `str::lines` strips the
`\r` of a `\r\n` line ending. -/
def stripCR (l : List Char) : List Char :=
  match l.getLast? with
  | some '\r' => l.dropLast
  | _ => l

/-- Rust's `str::lines` over the `\n`-split pieces: every piece except
the last was terminated by `\n` and loses a trailing `\r`; a final
empty piece (content ending in `\n`) yields no extra line. -/
def linesPieces : List (List Char) → List (List Char)
  | [] => []
  | [last] => if last = [] then [] else [last]
  | piece :: rest => stripCR piece :: linesPieces rest

/-- `content.lines()` as `from_passwd_file` iterates it. -/
def rustLines (content : List Char) : List (List Char) :=
  linesPieces (splitOnChar '\n' content)

/-- `i32::from_str` (`core`'s `from_str_radix`): optional sign, one or
more ASCII digits, range `-2^31 ..= 2^31 - 1`. -/
def parseI32 (l : List Char) : Option Int :=
  match l with
  | '+' :: ds =>
    if !ds.isEmpty && ds.all isDigitChar && decide (ofDigits ds ≤ 2147483647) then
      some (ofDigits ds)
    else none
  | '-' :: ds =>
    if !ds.isEmpty && ds.all isDigitChar && decide (ofDigits ds ≤ 2147483648) then
      some (-(ofDigits ds : Int))
    else none
  | ds =>
    if !ds.isEmpty && ds.all isDigitChar && decide (ofDigits ds ≤ 2147483647) then
      some (ofDigits ds)
    else none

/-- `HashMap::insert` keyed by uid: replace an existing entry or add. -/
def insertUser (key : Int) (value : User) : List (Int × User) → List (Int × User)
  | [] => [(key, value)]
  | (k, v) :: rest =>
    if k = key then (key, value) :: rest else (k, v) :: insertUser key value rest

/-- The line loop of `User::from_passwd_file` (model.rs:77-96): a line
with fewer than 6 colon-separated fields is skipped without parsing; on
a line with at least 6 fields, fields 2 and 3 go through
`i32::from_str(..).unwrap()`, so a parse failure panics — modelled as
`none`. -/
def passwdLoop : List (List Char) → List (Int × User) → Option (List (Int × User))
  | [], users => some users
  | line :: rest, users =>
    let parts := splitOnChar ':' line
    if 6 ≤ parts.length then
      match parseI32 (parts.getD 2 []), parseI32 (parts.getD 3 []) with
      | some user_id, some group_id =>
        passwdLoop rest (insertUser user_id
          ⟨⟨parts.getD 0 []⟩, user_id, some group_id, ⟨parts.getD 5 []⟩⟩ users)
      | _, _ => none
    else passwdLoop rest users

/-- `User::from_passwd_file` (model.rs:70-100), applied to the file's
content (a missing or unreadable file is handled before this loop);
`none` models the `unwrap` panic. -/
def User.from_passwd_file (content : List Char) : Option (List (Int × User)) :=
  passwdLoop (rustLines content) []

theorem passwdLoop_isSome : ∀ (ls : List (List Char)) (acc : List (Int × User)),
    (passwdLoop ls acc).isSome = true ↔
      ∀ l ∈ ls, 6 ≤ (splitOnChar ':' l).length →
        (parseI32 ((splitOnChar ':' l).getD 2 [])).isSome = true
        ∧ (parseI32 ((splitOnChar ':' l).getD 3 [])).isSome = true := by
  intro ls
  induction ls with
  | nil =>
    intro acc
    simp [passwdLoop]
  | cons line rest ih =>
    intro acc
    by_cases hlen : 6 ≤ (splitOnChar ':' line).length
    · cases h2 : parseI32 ((splitOnChar ':' line).getD 2 []) with
      | none =>
        have hL : passwdLoop (line :: rest) acc = none := by
          simp only [passwdLoop]
          rw [if_pos hlen, h2]
        rw [hL]
        simp only [Option.isSome_none]
        constructor
        · intro hfalse
          exact absurd hfalse (by simp)
        · intro hall
          have hx := (hall line (List.mem_cons_self _ _) hlen).1
          rw [h2] at hx
          exact absurd hx (by simp)
      | some uid =>
        cases h3 : parseI32 ((splitOnChar ':' line).getD 3 []) with
        | none =>
          have hL : passwdLoop (line :: rest) acc = none := by
            simp only [passwdLoop]
            rw [if_pos hlen, h2, h3]
          rw [hL]
          simp only [Option.isSome_none]
          constructor
          · intro hfalse
            exact absurd hfalse (by simp)
          · intro hall
            have hx := (hall line (List.mem_cons_self _ _) hlen).2
            rw [h3] at hx
            exact absurd hx (by simp)
        | some gid =>
          have hL : passwdLoop (line :: rest) acc = passwdLoop rest
              (insertUser uid
                ⟨⟨(splitOnChar ':' line).getD 0 []⟩, uid, some gid,
                  ⟨(splitOnChar ':' line).getD 5 []⟩⟩ acc) := by
            simp only [passwdLoop]
            rw [if_pos hlen, h2, h3]
          rw [hL, ih _]
          constructor
          · intro hrest l hl
            rcases List.mem_cons.mp hl with rfl | hl2
            · intro _
              exact ⟨by rw [h2]; rfl, by rw [h3]; rfl⟩
            · exact hrest l hl2
          · intro hall l hl
            exact hall l (List.mem_cons_of_mem _ hl)
    · have hL : passwdLoop (line :: rest) acc = passwdLoop rest acc := by
        simp only [passwdLoop]
        rw [if_neg hlen]
      rw [hL, ih _]
      constructor
      · intro hrest l hl
        rcases List.mem_cons.mp hl with rfl | hl2
        · intro hlen2
          exact absurd hlen2 hlen
        · exact hrest l hl2
      · intro hall l hl
        exact hall l (List.mem_cons_of_mem _ hl)

/-- **C9** (confirmed): `from_passwd_file` completes without panicking
exactly when, in every line with at least 6 colon-separated fields,
fields 2 and 3 parse as `i32`; such a line with an unparsable uid or gid
panics (`none`), while a single line with fewer than 6 fields is
skipped without parsing, yielding the empty map. -/
theorem C9_passwd_totality : ∀ (content line : List Char),
    ((User.from_passwd_file content).isSome = true ↔
      ∀ l ∈ rustLines content, 6 ≤ (splitOnChar ':' l).length →
        (parseI32 ((splitOnChar ':' l).getD 2 [])).isSome = true
        ∧ (parseI32 ((splitOnChar ':' l).getD 3 [])).isSome = true)
    ∧ (('\n' : Char) ∉ line → line ≠ [] → (splitOnChar ':' line).length < 6 →
        User.from_passwd_file line = some []) := by
  intro content line
  constructor
  · exact passwdLoop_isSome (rustLines content) []
  · intro hnl hne hlen
    unfold User.from_passwd_file rustLines
    rw [splitOnChar_no_sep hnl]
    simp [linesPieces, hne, passwdLoop, Nat.not_le.mpr hlen]
